import Mathlib

/-!
Verification of the MachineAttrition chaos-testing workload
(src/fdbserver/workloads/MachineAttrition.actor.cpp).

The workload is embedded shallowly: localities, worker descriptors and the
configuration struct become Lean structures; the actor loops become pure
recursive functions over explicit random-draw streams, producing a trace of
the externally visible actions (delays, kill primitives issued to the
simulator, the self-destruct throw).  Rationals stand for the C++ doubles
returned by random01(); the outcome of each uniform draw is passed in
explicitly, so that every statement about "probability p" becomes a statement
about the threshold comparison the code performs on the draw.
-/

namespace MachineAttrition

/-- Locality attributes of a cluster member (flow LocalityData, as used by
the workload: zone, machine, datacenter, datahall and process ids, each
optional). -/
structure LocalityData where
  processId : Option String := none
  zoneId : Option String := none
  machineId : Option String := none
  dcId : Option String := none
  dataHallId : Option String := none
  deriving DecidableEq

/-- Process classes relevant to the workload (only TesterClass is ever
tested against; the others stand for the remaining classes). -/
inductive ProcessClass
  | UnsetClass
  | StorageClass
  | TransactionClass
  | TesterClass
  deriving DecidableEq

/-- A simulated process as seen by getServers: failure flag, process name,
starting class and locality (ISimulator::ProcessInfo fields read at
MachineAttrition.actor.cpp:105). -/
structure ProcessInfo where
  failed : Bool
  name : String
  startingClass : ProcessClass
  locality : LocalityData
  deriving DecidableEq

/-- A live-cluster worker as seen by noSimMachineKillWorker: its process
class and the locality carried by its interface. -/
structure WorkerDetails where
  processClass : ProcessClass
  locality : LocalityData
  deriving DecidableEq

/-- The simulator kill kinds used by the workload (ISimulator::KillType). -/
inductive KillType
  | KillInstantly
  | InjectFaults
  | RebootAndDelete
  | Reboot
  deriving DecidableEq

/-- The workload configuration options (MachineAttrition.actor.cpp:62-97),
immutable for the run. -/
structure AttritionConfig where
  machinesToKill : Nat
  machinesToLeave : Nat
  reboot : Bool
  killDc : Bool
  killMachine : Bool
  killDatahall : Bool
  killProcess : Bool
  killSelf : Bool
  targetId : String
  replacement : Bool
  allowFaultInjection : Bool
  deriving DecidableEq

/-- getServers (MachineAttrition.actor.cpp:101-108): keep exactly the
processes that are not failed, are named "Server", and whose starting class
is not the tester class. -/
def getServers (all : List ProcessInfo) : List ProcessInfo :=
  all.filter fun p =>
    !p.failed && p.name == "Server" && !(decide (p.startingClass = ProcessClass.TesterClass))

/-- One update of the zoneId-keyed machine map
(`machineIDMap[zoneId] = locality`, MachineAttrition.actor.cpp:119):
replace the entry for the key if present, otherwise add one. -/
def mapInsert (k : Option String) (v : LocalityData) :
    List (Option String × LocalityData) → List (Option String × LocalityData)
  | [] => [(k, v)]
  | (k', v') :: rest =>
      if k = k' then (k, v) :: rest else (k', v') :: mapInsert k v rest

/-- The zoneId-keyed map built in start (MachineAttrition.actor.cpp:116-120)
from the filtered server list. -/
def buildMachineIDMap (ps : List ProcessInfo) : List (Option String × LocalityData) :=
  ps.foldl (fun m p => mapInsert p.locality.zoneId p.locality m) []

/-- The machine pool as assembled in start (MachineAttrition.actor.cpp:121-124):
the values of the zoneId-keyed map (the subsequent uniform shuffle is modelled
as an arbitrary permutation in the theorems). -/
def machinesOf (all : List ProcessInfo) : List LocalityData :=
  (buildMachineIDMap (getServers all)).map Prod.snd

/-- Externally visible actions of one run, in order: timed delays, the two
probabilistic pre-kill side effects, the simulator kill primitives, and the
self-destruct throw. -/
inductive Event
  | delayEv (t : ℚ)
  | setHealthyZoneEv (zone : Option String)
  | startSuppressionEv
  | killDataCenter (dc : Option String) (kt : KillType)
  | killZone (zone : Option String) (kt : KillType)
  | rebootProcessEv (zone : Option String) (flag : Bool)
  | raisePleaseReboot
  deriving DecidableEq

/-- The random draws consumed by one iteration of the kill loop: the two
uniform [0,1) samples used by the action decision, the two BUGGIFY coin
flips, and the sample for the next delayBeforeKill. -/
structure IterDraws where
  r1 : ℚ
  r2 : ℚ
  b1 : Bool
  b2 : Bool
  rNextDelay : ℚ
  deriving DecidableEq

/-- The non-reboot kill-kind decision (MachineAttrition.actor.cpp:332-340):
randomDouble below 0.33 yields RebootAndDelete; otherwise a second draw below
0.5, or fault injection being disallowed, yields KillInstantly, else
InjectFaults. -/
def decideKillAction (allowFaultInjection : Bool) (r1 r2 : ℚ) : KillType :=
  if r1 < 33/100 then KillType.RebootAndDelete
  else if r2 < 1/2 || !allowFaultInjection then KillType.KillInstantly
  else KillType.InjectFaults

/-- The kill action of one iteration (MachineAttrition.actor.cpp:325-341):
with reboot set, a draw above 0.5 reboots one process of the zone with a
second random flag, otherwise the zone is rebooted; without reboot, the
zone is killed with the decided kill kind. -/
def killActionEvent (reboot allowFaultInjection : Bool) (d : IterDraws)
    (target : LocalityData) : Event :=
  if reboot then
    if d.r1 > 1/2 then Event.rebootProcessEv target.zoneId (d.r2 > 1/2)
    else Event.killZone target.zoneId KillType.Reboot
  else
    Event.killZone target.zoneId (decideKillAction allowFaultInjection d.r1 d.r2)

/-- The events of one iteration of the kill loop
(MachineAttrition.actor.cpp:284-350): the pre-kill delay, the two rare
BUGGIFY side effects (zone maintenance marking, storage-server failure
suppression), the kill action, and the cooldown delay. -/
def iterEvents (reboot allowFaultInjection : Bool) (meanDelay dbk : ℚ)
    (d : IterDraws) (target : LocalityData) : List Event :=
  Event.delayEv dbk ::
    ((if d.b1 then [Event.setHealthyZoneEv target.zoneId]
      else if d.b2 then [Event.startSuppressionEv] else []) ++
     [killActionEvent reboot allowFaultInjection d target,
      Event.delayEv (meanDelay - dbk)])

/-- The general (non-datacenter) kill loop of machineKillWorker
(MachineAttrition.actor.cpp:284-351).  The loop condition
`killedMachines < machinesToKill` is encoded by the fuel argument
(machinesToKill minus kills so far); `machines.size() > machinesToLeave` is
checked each iteration.  Each iteration targets the pool's tail, emits its
events, and pops the tail unless replacement is configured.  Returns the
event trace, the list of targeted localities in order, and the final pool. -/
def killLoop (toLeave : Nat) (replacement reboot allowFaultInjection : Bool)
    (meanDelay : ℚ) :
    Nat → (Nat → IterDraws) → ℚ → List LocalityData →
    List Event × List LocalityData × List LocalityData
  | 0, _, _, pool => ([], [], pool)
  | fuel + 1, draws, dbk, pool =>
    if pool.length > toLeave then
      match pool.getLast? with
      | none => ([], [], pool)
      | some target =>
        let d := draws 0
        let pool2 := if replacement then pool else pool.dropLast
        let rest := killLoop toLeave replacement reboot allowFaultInjection meanDelay
          fuel (fun i => draws (i + 1)) (d.rNextDelay * meanDelay) pool2
        (iterEvents reboot allowFaultInjection meanDelay dbk d target ++ rest.1,
         target :: rest.2.1, rest.2.2)
    else ([], [], pool)

/-- The datacenter-kill kind (MachineAttrition.actor.cpp:272-278): the
result of randomInt(0,3) maps 0 to KillInstantly, 1 to InjectFaults and
anything else (that is, 2) to RebootAndDelete. -/
def dcKillType : Nat → KillType
  | 0 => KillType.KillInstantly
  | 1 => KillType.InjectFaults
  | _ => KillType.RebootAndDelete

/-- The trailing self-destruct of machineKillWorker
(MachineAttrition.actor.cpp:354-355): throw please_reboot when killSelf is
configured. -/
def selfDestructEvents (killSelf : Bool) : List Event :=
  if killSelf then [Event.raisePleaseReboot] else []

/-- machineKillWorker (MachineAttrition.actor.cpp:257-357) as a function of
the configuration, the (already shuffled) machine pool, meanDelay, the
initial delayBeforeKill draw, the randomInt(0,3) draw of the datacenter
branch, and the per-iteration draw stream.  The datacenter branch asserts a
non-empty pool (modelled as none), delays once, and issues a single
killDataCenter against the pool tail's dcId; the general branch runs the
kill loop.  Either way a configured killSelf raises please_reboot last. -/
def machineKillWorker (cfg : AttritionConfig) (pool : List LocalityData)
    (meanDelay rInit : ℚ) (rDc : Nat) (draws : Nat → IterDraws) :
    Option (List Event × List LocalityData × List LocalityData) :=
  if cfg.killDc then
    match pool.getLast? with
    | none => none
    | some last =>
      let kt := if cfg.reboot then KillType.Reboot else dcKillType rDc
      some ([Event.delayEv (rInit * meanDelay), Event.killDataCenter last.dcId kt] ++
              selfDestructEvents cfg.killSelf,
            [], pool)
  else
    let r := killLoop cfg.machinesToLeave cfg.replacement cfg.reboot
      cfg.allowFaultInjection meanDelay cfg.machinesToKill draws (rInit * meanDelay) pool
    some (r.1 ++ selfDestructEvents cfg.killSelf, r.2.1, r.2.2)

/-- noSimIsViableKill (MachineAttrition.actor.cpp:151-153): true exactly
when the worker's process class is the tester class. -/
def noSimIsViableKill (worker : WorkerDetails) : Bool :=
  decide (worker.processClass = ProcessClass.TesterClass)

/-- The live-variant worker pool (MachineAttrition.actor.cpp:167-173): the
queried workers for which noSimIsViableKill holds are pushed into the pool
(the subsequent uniform shuffle is modelled as a permutation in the
theorems). -/
def noSimWorkerPool (allWorkers : List WorkerDetails) : List WorkerDetails :=
  allWorkers.filter noSimIsViableKill

/-- The four scoped kill modes of the live variant. -/
inductive KillScope
  | dc
  | machine
  | datahall
  | process
  deriving DecidableEq

/-- The locality identifier read for each scope. -/
def scopeId : KillScope → LocalityData → Option String
  | KillScope.dc, l => l.dcId
  | KillScope.machine, l => l.machineId
  | KillScope.datahall, l => l.dataHallId
  | KillScope.process, l => l.processId

/-- The identifier a scoped live kill targets
(MachineAttrition.actor.cpp:177,188,199,210): the configured targetId when
non-empty, otherwise the scope identifier of the pool's tail element. -/
def noSimScopedKillId (workers : List WorkerDetails) (scope : KillScope)
    (targetId : String) : Option String :=
  if targetId = "" then
    match workers.getLast? with
    | none => none
    | some w => scopeId scope w.locality
  else some targetId

/-- The workers a scoped live kill sends a reboot request to
(MachineAttrition.actor.cpp:179-218): each pool member whose scope
identifier is present and equals the chosen identifier, once per loop
visit. -/
def noSimScopedSends (workers : List WorkerDetails) (scope : KillScope)
    (targetId : String) : List WorkerDetails :=
  workers.filter fun w =>
    (scopeId scope w.locality).isSome &&
      decide (scopeId scope w.locality = noSimScopedKillId workers scope targetId)

/-- Modelled from the spec: the value written at the healthy-zone marker key
by setHealthyZone (fdbclient ManagementAPI, outside src/) when suppression
of storage-server failures is requested. -/
def ignoreSSFailuresZone : String := "IgnoreSSFailures"

/-- A primitive step of the suppression window
(MachineAttrition.actor.cpp:40-59): write the marker, wait out the
duration, or attempt one clear-and-commit whose outcome is ok. -/
inductive SuppStep
  | openMarker
  | delayStep
  | clearCommit (ok : Bool)
  deriving DecidableEq

/-- Effect of one suppression-window step on the marker key's content.
A failed commit leaves the key unchanged (the transaction is retried);
a successful commit clears it. -/
def applySuppStep (st : Option String) : SuppStep → Option String
  | SuppStep.openMarker => some ignoreSSFailuresZone
  | SuppStep.delayStep => st
  | SuppStep.clearCommit ok => if ok then none else st

/-- The clear-retry loop of ignoreSSFailuresForDuration
(MachineAttrition.actor.cpp:48-58) as the list of commit attempts it makes,
given the stream of commit outcomes: it stops at the first success. -/
def clearAttempts : List Bool → List SuppStep
  | [] => []
  | true :: _ => [SuppStep.clearCommit true]
  | false :: rest => SuppStep.clearCommit false :: clearAttempts rest

/-- The full step sequence of ignoreSSFailuresForDuration
(MachineAttrition.actor.cpp:40-59): open the marker, wait, then clear with
retry until a commit succeeds. -/
def windowSteps (commits : List Bool) : List SuppStep :=
  SuppStep.openMarker :: SuppStep.delayStep :: clearAttempts commits

/-- Run a sequence of suppression-window steps over the marker state. -/
def runSteps (st : Option String) (steps : List SuppStep) : Option String :=
  steps.foldl applySuppStep st

/-- Modelled from the spec: cancellation semantics of a future.  A
cancellable future executes only the steps before the cancellation point;
a future wrapped in `uncancellable` (flow, outside src/) executes all its
steps regardless. -/
def runFuture (uncancellable : Bool) (cancelAt : Option Nat)
    (st : Option String) (steps : List SuppStep) : Option String :=
  match cancelAt with
  | none => runSteps st steps
  | some n => if uncancellable then runSteps st steps else runSteps st (steps.take n)

/-- The suppression window as started by machineKillWorker
(MachineAttrition.actor.cpp:315-316): ignoreSSFailuresForDuration wrapped
in `uncancellable`, subject to a possible cancellation of the owning run. -/
def suppressionInKillWorker (cancelAt : Option Nat) (st : Option String)
    (commits : List Bool) : Option String :=
  runFuture true cancelAt st (windowSteps commits)

/-- The error code of please_reboot (the numeric value lives outside src/;
only distinctness matters here). -/
def errorCodePleaseReboot : Nat := 1207

/-- The error code of please_reboot_delete. -/
def errorCodePleaseRebootDelete : Nat := 1208

/-- normalAttritionErrors (MachineAttrition.actor.cpp:31-38): the set of
error codes expected at the run boundary, namely please_reboot and
please_reboot_delete. -/
def normalAttritionErrors : List Nat :=
  [errorCodePleaseReboot, errorCodePleaseRebootDelete]

/-- Modelled from the spec: reportErrorsExcept (flow genericactors, outside
src/) passes normal completion through and swallows exactly the errors in
the allowed set, propagating every other error as a test failure.  The
worker outcome is none for completion, some e for a thrown error code. -/
def reportErrorsExcept (allowed : List Nat) (workerError : Option Nat) :
    Except Nat Unit :=
  match workerError with
  | none => Except.ok ()
  | some e => if e ∈ allowed then Except.ok () else Except.error e

/-- Modelled from the spec: the `timeout(_, testDuration, Void())` wrapper
(MachineAttrition.actor.cpp:134-136) converts expiry of the run's outer
time budget into a normal, non-error completion. -/
def timeoutWrap (expired : Bool) (inner : Except Nat Unit) : Except Nat Unit :=
  if expired then Except.ok () else inner

/-- The run boundary built in start (MachineAttrition.actor.cpp:134-136):
the worker wrapped by reportErrorsExcept with normalAttritionErrors, then
by the outer time budget. -/
def startBoundary (workerError : Option Nat) (expired : Bool) : Except Nat Unit :=
  timeoutWrap expired (reportErrorsExcept normalAttritionErrors workerError)

/-! ### Concrete instances used by the closed theorems -/

/-- A member of zone zA in datacenter dc1. -/
def locA : LocalityData := { zoneId := some "zA", dcId := some "dc1" }

/-- A member of zone zB in datacenter dc1. -/
def locB : LocalityData := { zoneId := some "zB", dcId := some "dc1" }

/-- A member of zone zC in datacenter dc2. -/
def locC : LocalityData := { zoneId := some "zC", dcId := some "dc2" }

/-- A draw stream that always returns zero samples and false coin flips. -/
def zeroDraws : Nat → IterDraws := fun _ => ⟨0, 0, false, false, 0⟩

/-- A baseline configuration: two kills, preserve one, no scoped mode, no
reboot, no replacement, no self-destruct. -/
def baseCfg : AttritionConfig :=
  { machinesToKill := 2, machinesToLeave := 1, reboot := false, killDc := false,
    killMachine := false, killDatahall := false, killProcess := false,
    killSelf := false, targetId := "", replacement := false,
    allowFaultInjection := true }

/-- A tester-class live worker in dc1. -/
def workerT1 : WorkerDetails := { processClass := ProcessClass.TesterClass, locality := locA }

/-- A tester-class live worker in dc2. -/
def workerT2 : WorkerDetails := { processClass := ProcessClass.TesterClass, locality := locC }

/-- A storage-class live worker. -/
def workerS : WorkerDetails := { processClass := ProcessClass.StorageClass, locality := locB }

/-- A concrete simulated process list: three live Server processes in
distinct zones. -/
def allEx : List ProcessInfo :=
  [{ failed := false, name := "Server", startingClass := ProcessClass.StorageClass, locality := locA },
   { failed := false, name := "Server", startingClass := ProcessClass.StorageClass, locality := locB },
   { failed := false, name := "Server", startingClass := ProcessClass.StorageClass, locality := locC }]

/-! ### Helper lemmas -/

/-- Without replacement, the kill loop pops exactly
`min fuel (pool.length - toLeave)` tail elements: the killed list is the
reverse of the popped suffix and the final pool is the kept front. -/
lemma killLoop_spec (toLeave : Nat) (reboot allowFI : Bool) (meanDelay : ℚ) :
    ∀ (fuel : Nat) (draws : Nat → IterDraws) (dbk : ℚ) (pool : List LocalityData),
      toLeave ≤ pool.length →
      (killLoop toLeave false reboot allowFI meanDelay fuel draws dbk pool).2.1
          = (pool.drop (pool.length - min fuel (pool.length - toLeave))).reverse ∧
      (killLoop toLeave false reboot allowFI meanDelay fuel draws dbk pool).2.2
          = pool.take (pool.length - min fuel (pool.length - toLeave)) := by
  intro fuel
  induction fuel with
  | zero =>
    intro draws dbk pool hK
    simp [killLoop]
  | succ n ih =>
    intro draws dbk pool hK
    by_cases h : pool.length > toLeave
    · have hne : pool ≠ [] := by
        intro he
        rw [he] at h
        simp at h
      have hlast : pool.getLast? = some (pool.getLast hne) :=
        List.getLast?_eq_getLast pool hne
      have hdecomp : pool.dropLast ++ [pool.getLast hne] = pool :=
        List.dropLast_append_getLast hne
      have hlen2 : pool.dropLast.length = pool.length - 1 := List.length_dropLast pool
      have hK2 : toLeave ≤ pool.dropLast.length := by omega
      obtain ⟨ih1, ih2⟩ := ih (fun i => draws (i + 1))
        ((draws 0).rNextDelay * meanDelay) pool.dropLast hK2
      set k := pool.dropLast.length - min n (pool.dropLast.length - toLeave) with hkdef
      have hmin : pool.length - min (n + 1) (pool.length - toLeave) = k := by
        rw [hkdef]
        omega
      have hle : k ≤ pool.dropLast.length := by
        rw [hkdef]
        omega
      have key : pool.drop k = pool.dropLast.drop k ++ [pool.getLast hne] := by
        conv_lhs => rw [← hdecomp]
        rw [List.drop_append_eq_append_drop]
        have h0 : k - pool.dropLast.length = 0 := by omega
        rw [h0]
        simp
      have keyT : pool.take k = pool.dropLast.take k := by
        conv_lhs => rw [← hdecomp]
        rw [List.take_append_of_le_length hle]
      simp only [killLoop, if_pos h, hlast]
      constructor
      · show pool.getLast hne ::
            (killLoop toLeave false reboot allowFI meanDelay n
              (fun i => draws (i + 1)) ((draws 0).rNextDelay * meanDelay)
              pool.dropLast).2.1 = _
        rw [ih1, hmin, key, List.reverse_append]
        simp
      · show (killLoop toLeave false reboot allowFI meanDelay n
              (fun i => draws (i + 1)) ((draws 0).rNextDelay * meanDelay)
              pool.dropLast).2.2 = _
        rw [ih2, hmin, keyT]
    · have hz : pool.length - toLeave = 0 := by omega
      simp [killLoop, if_neg h, hz]

/-- Number of kills performed by the loop without replacement. -/
lemma killLoop_killed_length (toLeave : Nat) (reboot allowFI : Bool) (meanDelay : ℚ)
    (fuel : Nat) (draws : Nat → IterDraws) (dbk : ℚ) (pool : List LocalityData)
    (hK : toLeave ≤ pool.length) :
    (killLoop toLeave false reboot allowFI meanDelay fuel draws dbk pool).2.1.length
      = min fuel (pool.length - toLeave) := by
  rw [(killLoop_spec toLeave reboot allowFI meanDelay fuel draws dbk pool hK).1]
  simp only [List.length_reverse, List.length_drop]
  omega

/-- Every locality killed by the loop without replacement comes from the
initial pool. -/
lemma killLoop_killed_subset (toLeave : Nat) (reboot allowFI : Bool) (meanDelay : ℚ)
    (fuel : Nat) (draws : Nat → IterDraws) (dbk : ℚ) (pool : List LocalityData)
    (hK : toLeave ≤ pool.length) :
    ∀ x ∈ (killLoop toLeave false reboot allowFI meanDelay fuel draws dbk pool).2.1,
      x ∈ pool := by
  rw [(killLoop_spec toLeave reboot allowFI meanDelay fuel draws dbk pool hK).1]
  intro x hx
  rw [List.mem_reverse] at hx
  exact List.drop_subset _ pool hx

/-- If a projection of the pool is duplicate-free, so is that projection of
the killed list (no member, and no zone, is killed twice). -/
lemma killLoop_killed_map_nodup {β : Type} (f : LocalityData → β)
    (toLeave : Nat) (reboot allowFI : Bool) (meanDelay : ℚ)
    (fuel : Nat) (draws : Nat → IterDraws) (dbk : ℚ) (pool : List LocalityData)
    (hK : toLeave ≤ pool.length) (hnd : (pool.map f).Nodup) :
    ((killLoop toLeave false reboot allowFI meanDelay fuel draws dbk pool).2.1.map f).Nodup := by
  rw [(killLoop_spec toLeave reboot allowFI meanDelay fuel draws dbk pool hK).1]
  rw [List.map_reverse, List.nodup_reverse, List.map_drop]
  exact hnd.sublist (List.drop_sublist _ _)

/-- One loop iteration never raises please_reboot. -/
lemma raise_not_mem_iterEvents (reboot allowFI : Bool) (meanDelay dbk : ℚ)
    (d : IterDraws) (t : LocalityData) :
    Event.raisePleaseReboot ∉ iterEvents reboot allowFI meanDelay dbk d t := by
  simp only [iterEvents, killActionEvent, decideKillAction, List.mem_cons,
    List.mem_append, List.mem_singleton]
  split_ifs <;> simp

/-- The kill loop itself (with or without replacement) never raises
please_reboot. -/
lemma killLoop_no_raise (toLeave : Nat) (replacement reboot allowFI : Bool)
    (meanDelay : ℚ) :
    ∀ (fuel : Nat) (draws : Nat → IterDraws) (dbk : ℚ) (pool : List LocalityData),
      Event.raisePleaseReboot ∉
        (killLoop toLeave replacement reboot allowFI meanDelay fuel draws dbk pool).1 := by
  intro fuel
  induction fuel with
  | zero =>
    intro draws dbk pool
    simp [killLoop]
  | succ n ih =>
    intro draws dbk pool
    by_cases h : pool.length > toLeave
    · cases hlast : pool.getLast? with
      | none => simp [killLoop, if_pos h, hlast]
      | some target =>
        simp only [killLoop, if_pos h, hlast, List.mem_append]
        intro hc
        rcases hc with hc | hc
        · exact raise_not_mem_iterEvents reboot allowFI meanDelay dbk (draws 0) target hc
        · exact ih _ _ _ hc
    · simp [killLoop, if_neg h]

/-- Entries after a map update are the new pair or old entries. -/
lemma mapInsert_mem (k : Option String) (v : LocalityData) :
    ∀ (m : List (Option String × LocalityData)) (e : Option String × LocalityData),
      e ∈ mapInsert k v m → e = (k, v) ∨ e ∈ m := by
  intro m
  induction m with
  | nil =>
    intro e he
    simp [mapInsert] at he
    exact Or.inl he
  | cons hd tl ih =>
    intro e he
    by_cases hk : k = hd.1
    · rw [show mapInsert k v (hd :: tl) = (k, v) :: tl by
        cases hd
        simp [mapInsert, hk]] at he
      rcases List.mem_cons.mp he with h | h
      · exact Or.inl h
      · exact Or.inr (List.mem_cons_of_mem hd h)
    · rw [show mapInsert k v (hd :: tl) = hd :: mapInsert k v tl by
        cases hd
        simp only [mapInsert, if_neg hk]] at he
      rcases List.mem_cons.mp he with h | h
      · exact Or.inr (h ▸ List.mem_cons_self hd tl)
      · rcases ih e h with h' | h'
        · exact Or.inl h'
        · exact Or.inr (List.mem_cons_of_mem hd h')

/-- Keys present after a map update. -/
lemma mapInsert_keys_mem (k : Option String) (v : LocalityData) :
    ∀ (m : List (Option String × LocalityData)) (x : Option String),
      x ∈ (mapInsert k v m).map Prod.fst ↔ x = k ∨ x ∈ m.map Prod.fst := by
  intro m
  induction m with
  | nil =>
    intro x
    simp [mapInsert]
  | cons hd tl ih =>
    intro x
    by_cases hk : k = hd.1
    · rw [show mapInsert k v (hd :: tl) = (k, v) :: tl by
        cases hd
        simp [mapInsert, hk]]
      simp only [List.map_cons, List.mem_cons]
      rw [← hk]
      tauto
    · rw [show mapInsert k v (hd :: tl) = hd :: mapInsert k v tl by
        cases hd
        simp only [mapInsert, if_neg hk]]
      simp only [List.map_cons, List.mem_cons, ih]
      tauto

/-- A map update preserves key distinctness. -/
lemma mapInsert_keys_nodup (k : Option String) (v : LocalityData) :
    ∀ (m : List (Option String × LocalityData)),
      (m.map Prod.fst).Nodup → ((mapInsert k v m).map Prod.fst).Nodup := by
  intro m
  induction m with
  | nil =>
    intro _
    simp [mapInsert]
  | cons hd tl ih =>
    intro hnd
    simp only [List.map_cons, List.nodup_cons] at hnd
    by_cases hk : k = hd.1
    · rw [show mapInsert k v (hd :: tl) = (k, v) :: tl by
        cases hd
        simp [mapInsert, hk]]
      simp only [List.map_cons, List.nodup_cons]
      exact ⟨hk ▸ hnd.1, hnd.2⟩
    · rw [show mapInsert k v (hd :: tl) = hd :: mapInsert k v tl by
        cases hd
        simp only [mapInsert, if_neg hk]]
      simp only [List.map_cons, List.nodup_cons]
      refine ⟨fun hc => ?_, ih hnd.2⟩
      rcases (mapInsert_keys_mem k v tl hd.1).mp hc with h | h
      · exact hk h.symm
      · exact hnd.1 h

/-- Every entry of the folded map satisfies any property satisfied by the
initial entries and by each inserted (zoneId, locality) pair. -/
lemma foldl_mapInsert_prop (C : Option String × LocalityData → Prop) :
    ∀ (ps : List ProcessInfo) (m : List (Option String × LocalityData)),
      (∀ e ∈ m, C e) → (∀ p ∈ ps, C (p.locality.zoneId, p.locality)) →
      ∀ e ∈ ps.foldl (fun m p => mapInsert p.locality.zoneId p.locality m) m, C e := by
  intro ps
  induction ps with
  | nil =>
    intro m hm _ e he
    exact hm e he
  | cons p rest ih =>
    intro m hm hps e he
    simp only [List.foldl_cons] at he
    refine ih (mapInsert p.locality.zoneId p.locality m) ?_ ?_ e he
    · intro e' he'
      rcases mapInsert_mem p.locality.zoneId p.locality m e' he' with h | h
      · exact h ▸ hps p (List.mem_cons_self p rest)
      · exact hm e' h
    · intro q hq
      exact hps q (List.mem_cons_of_mem p hq)

/-- The folded map keeps its keys distinct. -/
lemma foldl_mapInsert_keys_nodup :
    ∀ (ps : List ProcessInfo) (m : List (Option String × LocalityData)),
      (m.map Prod.fst).Nodup →
      ((ps.foldl (fun m p => mapInsert p.locality.zoneId p.locality m) m).map Prod.fst).Nodup := by
  intro ps
  induction ps with
  | nil =>
    intro m hm
    exact hm
  | cons p rest ih =>
    intro m hm
    simp only [List.foldl_cons]
    exact ih _ (mapInsert_keys_nodup p.locality.zoneId p.locality m hm)

/-- The machine pool built at run start has pairwise distinct zone
identifiers. -/
lemma machinesOf_zoneId_nodup (all : List ProcessInfo) :
    ((machinesOf all).map LocalityData.zoneId).Nodup := by
  have hkey : ∀ e ∈ buildMachineIDMap (getServers all), e.1 = e.2.zoneId :=
    foldl_mapInsert_prop (fun e => e.1 = e.2.zoneId) (getServers all) []
      (by simp) (fun p _ => rfl)
  have hnd : ((buildMachineIDMap (getServers all)).map Prod.fst).Nodup :=
    foldl_mapInsert_keys_nodup (getServers all) [] (by simp)
  have hmm : (machinesOf all).map LocalityData.zoneId
      = (buildMachineIDMap (getServers all)).map Prod.fst := by
    unfold machinesOf
    rw [List.map_map]
    exact List.map_eq_map_iff.mpr fun e he => (hkey e he).symm
  rw [hmm]
  exact hnd

/-- Every pool member comes from a live, non-tester process named Server. -/
lemma machinesOf_mem (all : List ProcessInfo) :
    ∀ l ∈ machinesOf all, ∃ p, p ∈ all ∧ p.failed = false ∧ p.name = "Server" ∧
      p.startingClass ≠ ProcessClass.TesterClass ∧ p.locality = l := by
  intro l hl
  unfold machinesOf at hl
  rcases List.mem_map.mp hl with ⟨e, he, rfl⟩
  have hsrc : ∃ p ∈ getServers all, p.locality = e.2 :=
    foldl_mapInsert_prop (fun e => ∃ p ∈ getServers all, p.locality = e.2)
      (getServers all) [] (by simp) (fun p hp => ⟨p, hp, rfl⟩) e he
  rcases hsrc with ⟨p, hp, hpe⟩
  rcases List.mem_filter.mp hp with ⟨hpa, hcond⟩
  simp only [Bool.and_eq_true, Bool.not_eq_true', beq_iff_eq,
    decide_eq_false_iff_not] at hcond
  exact ⟨p, hpa, hcond.1.1, hcond.1.2, hcond.2, hpe⟩

/-- Once a commit of the clear succeeds, the marker key ends cleared. -/
lemma runSteps_clearAttempts :
    ∀ (commits : List Bool), true ∈ commits →
      ∀ st : Option String, runSteps st (clearAttempts commits) = none := by
  intro commits
  induction commits with
  | nil =>
    intro hsucc
    simp at hsucc
  | cons b rest ih =>
    intro hsucc st
    cases b
    · have hr : true ∈ rest := by
        simpa using hsucc
      simpa [clearAttempts, runSteps, applySuppStep] using ih hr st
    · simp [clearAttempts, runSteps, applySuppStep]

/-- Every trace of machineKillWorker splits into a raise-free part followed
by the self-destruct events. -/
lemma machineKillWorker_evs_decomp (cfg : AttritionConfig)
    (pool : List LocalityData) (meanDelay rInit : ℚ) (rDc : Nat)
    (draws : Nat → IterDraws) (evs : List Event) (killed poolF : List LocalityData)
    (hrun : machineKillWorker cfg pool meanDelay rInit rDc draws
      = some (evs, killed, poolF)) :
    ∃ pre, evs = pre ++ selfDestructEvents cfg.killSelf
      ∧ Event.raisePleaseReboot ∉ pre := by
  by_cases hdc : cfg.killDc = true
  · cases hlast : pool.getLast? with
    | none =>
      rw [machineKillWorker, if_pos hdc, hlast] at hrun
      exact absurd hrun (by simp)
    | some last =>
      rw [machineKillWorker, if_pos hdc, hlast] at hrun
      simp only [Option.some.injEq, Prod.mk.injEq] at hrun
      exact ⟨[Event.delayEv (rInit * meanDelay),
        Event.killDataCenter last.dcId
          (if cfg.reboot then KillType.Reboot else dcKillType rDc)],
        hrun.1.symm, by simp⟩
  · rw [machineKillWorker, if_neg hdc] at hrun
    simp only [Option.some.injEq, Prod.mk.injEq] at hrun
    refine ⟨(killLoop cfg.machinesToLeave cfg.replacement cfg.reboot
        cfg.allowFaultInjection meanDelay cfg.machinesToKill draws
        (rInit * meanDelay) pool).1, hrun.1.symm, ?_⟩
    exact killLoop_no_raise cfg.machinesToLeave cfg.replacement cfg.reboot
      cfg.allowFaultInjection meanDelay cfg.machinesToKill draws
      (rInit * meanDelay) pool

/-! ### Claim theorems -/

/-- Claim C1, counterexample: with replacement configured (N = 3, K = 0,
pool [locA, locB], so min(N, P − K) = 2) the completed unconstrained run
performs three kill events, all against the same member — neither three nor
the number of distinct victims equals min(N, P − K). -/
theorem C1_counterexample :
    (machineKillWorker { baseCfg with
        machinesToKill := 3
        machinesToLeave := 0
        replacement := true } [locA, locB] 1 0 0 zeroDraws).map (fun r => r.2.1)
      = some [locB, locB, locB]
    ∧ min 3 ([locA, locB].length - 0) = 2
    ∧ [locB, locB, locB].length ≠ 2
    ∧ ¬ List.Nodup [locB, locB, locB] := by
  refine ⟨by decide, by decide, by decide, by decide⟩

/-- Claim C1 (amended: the guarantee is restricted to runs without
replacement, as the counterexample forces): in a completed unconstrained
simulated run without replacement, for N = machinesToKill,
K = machinesToLeave and P ≥ K the initial pool size, exactly min(N, P − K)
members are killed, each taken from (and removed from the tail of) the
initial pool, no member is killed twice, the final pool is the untouched
front of the initial pool, and at least K members remain. -/
theorem C1_unconstrained_kill_count (cfg : AttritionConfig)
    (pool : List LocalityData) (meanDelay rInit : ℚ) (rDc : Nat)
    (draws : Nat → IterDraws)
    (hdc : cfg.killDc = false) (hrep : cfg.replacement = false)
    (hK : cfg.machinesToLeave ≤ pool.length) (hnd : pool.Nodup)
    (evs : List Event) (killed poolF : List LocalityData)
    (hrun : machineKillWorker cfg pool meanDelay rInit rDc draws
      = some (evs, killed, poolF)) :
    killed.length = min cfg.machinesToKill (pool.length - cfg.machinesToLeave)
    ∧ (∀ x ∈ killed, x ∈ pool)
    ∧ killed.Nodup
    ∧ poolF = pool.take (pool.length - killed.length)
    ∧ cfg.machinesToLeave ≤ poolF.length := by
  rw [machineKillWorker, if_neg (by simp [hdc])] at hrun
  simp only [Option.some.injEq, Prod.mk.injEq] at hrun
  obtain ⟨-, h2, h3⟩ := hrun
  rw [hrep] at h2 h3
  subst h2
  subst h3
  have hlen := killLoop_killed_length cfg.machinesToLeave cfg.reboot
    cfg.allowFaultInjection meanDelay cfg.machinesToKill draws
    (rInit * meanDelay) pool hK
  have hsub := killLoop_killed_subset cfg.machinesToLeave cfg.reboot
    cfg.allowFaultInjection meanDelay cfg.machinesToKill draws
    (rInit * meanDelay) pool hK
  have hnodup : ((killLoop cfg.machinesToLeave false cfg.reboot
      cfg.allowFaultInjection meanDelay cfg.machinesToKill draws
      (rInit * meanDelay) pool).2.1.map id).Nodup :=
    killLoop_killed_map_nodup id cfg.machinesToLeave cfg.reboot
      cfg.allowFaultInjection meanDelay cfg.machinesToKill draws
      (rInit * meanDelay) pool hK (by simpa using hnd)
  have htake := (killLoop_spec cfg.machinesToLeave cfg.reboot
    cfg.allowFaultInjection meanDelay cfg.machinesToKill draws
    (rInit * meanDelay) pool hK).2
  refine ⟨hlen, hsub, by simpa using hnodup, ?_, ?_⟩
  · rw [htake, hlen]
  · rw [htake]
    simp only [List.length_take]
    omega

/-- Concrete instance of the amended C1: N = 2, K = 1, pool of size 3 kills
exactly two members. -/
theorem C1_unconstrained_kill_count_witness :
    (machineKillWorker baseCfg [locA, locB, locC] 1 0 0 zeroDraws).map
        (fun r => r.2.1.length) = some 2 := by
  obtain ⟨evs, killed, poolF, hrun⟩ :
      ∃ evs killed poolF,
        machineKillWorker baseCfg [locA, locB, locC] 1 0 0 zeroDraws
          = some (evs, killed, poolF) := ⟨_, _, _, rfl⟩
  have h := C1_unconstrained_kill_count baseCfg [locA, locB, locC] 1 0 0
    zeroDraws rfl rfl (by decide) (by decide) evs killed poolF hrun
  rw [hrun]
  simp only [Option.map_some']
  rw [h.1]
  decide

/-- Claim C2, behavior of the code at the failing input: the live-variant
pool preprocessing keeps exactly the tester-class workers (noSimIsViableKill
is true only for testers, and the loop at MachineAttrition.actor.cpp:169-173
pushes exactly those), the opposite of excluding them: a roster of one
storage worker and one tester yields the pool [tester]. -/
theorem C2_code_behavior :
    noSimWorkerPool [workerS, workerT1] = [workerT1]
    ∧ noSimIsViableKill workerS = false
    ∧ workerS.processClass ≠ ProcessClass.TesterClass
    ∧ workerT1.processClass = ProcessClass.TesterClass := by
  refine ⟨by decide, by decide, by decide, by decide⟩

/-- Claim C3, counterexample: a first draw of 0.33 lies below ⅓ yet does not
produce RebootAndDelete — the code's threshold is 0.33, not ⅓. -/
theorem C3_counterexample :
    (33/100 : ℚ) < 1/3
    ∧ decideKillAction true (33/100) 0 ≠ KillType.RebootAndDelete := by
  constructor
  · norm_num
  · simp [decideKillAction]

/-- Claim C3 (amended: the RebootAndDelete weight is 0.33, the code's
literal threshold, rather than ⅓): in the simulated non-datacenter loop
with reboot unset, the action is RebootAndDelete exactly when the first
draw is below 0.33; otherwise, with fault injection allowed, the action is
KillInstantly exactly when the second draw is below ½ and InjectFaults
otherwise; with fault injection disallowed the action is always
KillInstantly (InjectFaults is never issued). -/
theorem C3_kill_kind_decision (allowFI : Bool) (r1 r2 : ℚ) :
    (decideKillAction allowFI r1 r2 = KillType.RebootAndDelete ↔ r1 < 33/100)
    ∧ decideKillAction false r1 r2 ≠ KillType.InjectFaults
    ∧ (¬ r1 < 33/100 →
        (decideKillAction true r1 r2 = KillType.KillInstantly ↔ r2 < 1/2)
        ∧ (decideKillAction true r1 r2 = KillType.InjectFaults ↔ ¬ r2 < 1/2)
        ∧ decideKillAction false r1 r2 = KillType.KillInstantly) := by
  refine ⟨?_, ?_, fun h1 => ⟨?_, ?_, ?_⟩⟩ <;>
    simp only [decideKillAction] <;> split_ifs <;> simp_all

/-- Concrete instance of the amended C3: first draw ½ (not below 0.33),
second draw ¾ (not below ½), fault injection allowed, yields InjectFaults. -/
theorem C3_kill_kind_decision_witness :
    decideKillAction true (1/2) (3/4) = KillType.InjectFaults :=
  ((C3_kill_kind_decision true (1/2) (3/4)).2.2 (by norm_num)).2.1.mpr (by norm_num)

/-- Claim C4, counterexample: in the simulated variant with datacenter mode
and the explicit override "dc2" configured, the run's only kill action
targets "dc1" — the dcId of the pool's tail — and no action references the
override, although a pool member (locC) lies in dc2. -/
theorem C4_counterexample :
    machineKillWorker { baseCfg with
        killDc := true
        targetId := "dc2" } [locC, locA] 1 0 0 zeroDraws
      = some ([Event.delayEv (0 * 1),
               Event.killDataCenter (some "dc1") KillType.KillInstantly],
              [], [locC, locA])
    ∧ locC ∈ [locC, locA]
    ∧ locC.dcId = some "dc2"
    ∧ (some "dc1" : Option String) ≠ some "dc2" := by
  refine ⟨rfl, by decide, by decide, by decide⟩

/-- Claim C4 (amended: the scoped-selector contract holds in the
live-cluster variant only; the simulated variant has only the datacenter
mode, whose selector ignores any explicit override and always uses the
pool tail's dcId in a single killDataCenter action): (1) in the live
variant with an override set, a pool member receives a request exactly when
its scope identifier is present and equals the override, and then exactly
one; (2) with no override, the scope value is the tail element's and
exactly the members sharing that present value are targeted; (3) the
simulated datacenter branch is unchanged by any targetId and issues the
single kill for the tail's dcId. -/
theorem C4_scoped_selector :
    (∀ (workers : List WorkerDetails) (scope : KillScope) (tid : String)
        (w : WorkerDetails), tid ≠ "" →
        (w ∈ noSimScopedSends workers scope tid ↔
            w ∈ workers ∧ scopeId scope w.locality = some tid)
        ∧ (workers.Nodup → w ∈ workers →
            (noSimScopedSends workers scope tid).count w
              = if scopeId scope w.locality = some tid then 1 else 0))
    ∧ (∀ (workers : List WorkerDetails) (scope : KillScope)
        (tail w : WorkerDetails), workers.getLast? = some tail →
        (w ∈ noSimScopedSends workers scope "" ↔
          w ∈ workers ∧ (scopeId scope w.locality).isSome = true ∧
            scopeId scope w.locality = scopeId scope tail.locality))
    ∧ (∀ (cfg : AttritionConfig) (pool : List LocalityData)
        (meanDelay rInit : ℚ) (rDc : Nat) (draws : Nat → IterDraws)
        (t : String) (last : LocalityData),
        cfg.killDc = true → pool.getLast? = some last →
        machineKillWorker { cfg with targetId := t } pool meanDelay rInit rDc draws
          = some ([Event.delayEv (rInit * meanDelay),
                   Event.killDataCenter last.dcId
                     (if cfg.reboot then KillType.Reboot else dcKillType rDc)] ++
                  selfDestructEvents cfg.killSelf, [], pool)) := by
  refine ⟨?_, ?_, ?_⟩
  · intro workers scope tid w htid
    have hkill : noSimScopedKillId workers scope tid = some tid := by
      rw [noSimScopedKillId, if_neg htid]
    constructor
    · rw [noSimScopedSends, List.mem_filter, hkill]
      simp only [Bool.and_eq_true, decide_eq_true_eq]
      constructor
      · rintro ⟨hw, -, heq⟩
        exact ⟨hw, heq⟩
      · rintro ⟨hw, heq⟩
        exact ⟨hw, by simp [heq], heq⟩
    · intro hnd hw
      by_cases hmatch : scopeId scope w.locality = some tid
      · rw [if_pos hmatch, noSimScopedSends, hkill]
        rw [List.count_filter (by simp [hmatch])]
        exact List.count_eq_one_of_mem hnd hw
      · rw [if_neg hmatch, List.count_eq_zero]
        rw [noSimScopedSends, hkill]
        intro hc
        rcases List.mem_filter.mp hc with ⟨-, hcond⟩
        simp only [Bool.and_eq_true, decide_eq_true_eq] at hcond
        exact hmatch hcond.2
  · intro workers scope tail w hlast
    have hkill : noSimScopedKillId workers scope "" = scopeId scope tail.locality := by
      rw [noSimScopedKillId, if_pos rfl, hlast]
    rw [noSimScopedSends, List.mem_filter, hkill]
    simp only [Bool.and_eq_true, decide_eq_true_eq]
  · intro cfg pool meanDelay rInit rDc draws t last hdc hlast
    rcases cfg with ⟨mtk, mtl, rb, kdc, km, kdh, kp, ks, tid, rep, afi⟩
    simp only at hdc
    subst hdc
    simp [machineKillWorker, hlast]

/-- Concrete instance of the amended C4: the dc2 worker is targeted by a
live datacenter kill with override "dc2". -/
theorem C4_scoped_selector_witness :
    workerT2 ∈ noSimScopedSends [workerT1, workerT2] KillScope.dc "dc2" :=
  ((C4_scoped_selector.1 [workerT1, workerT2] KillScope.dc "dc2" workerT2
    (by decide)).1).mpr (by decide)

/-- Claim C5: in the simulated variant with datacenter mode the per-event
loop is skipped: after one delay of rInit·meanDelay (which lies in
[0, meanDelay) whenever rInit ∈ [0,1) and meanDelay > 0), exactly one
killDataCenter action is issued against the pool tail's datacenter and the
run finishes, for every configured event count N; the action kind is Reboot
when reboot is set and otherwise the image of the uniform draw on {0,1,2}
under KillInstantly/InjectFaults/RebootAndDelete. -/
theorem C5_dc_single_kill (cfg : AttritionConfig) (pool : List LocalityData)
    (meanDelay rInit : ℚ) (rDc : Nat) (draws : Nat → IterDraws)
    (last : LocalityData) (hdc : cfg.killDc = true)
    (hlast : pool.getLast? = some last) :
    machineKillWorker cfg pool meanDelay rInit rDc draws
      = some ([Event.delayEv (rInit * meanDelay),
               Event.killDataCenter last.dcId
                 (if cfg.reboot then KillType.Reboot else dcKillType rDc)] ++
              selfDestructEvents cfg.killSelf, [], pool)
    ∧ (∀ N : Nat, machineKillWorker { cfg with machinesToKill := N }
          pool meanDelay rInit rDc draws
        = machineKillWorker cfg pool meanDelay rInit rDc draws)
    ∧ (0 ≤ rInit → rInit < 1 → 0 < meanDelay →
        0 ≤ rInit * meanDelay ∧ rInit * meanDelay < meanDelay)
    ∧ dcKillType 0 = KillType.KillInstantly
    ∧ dcKillType 1 = KillType.InjectFaults
    ∧ dcKillType 2 = KillType.RebootAndDelete := by
  refine ⟨?_, ?_, ?_, rfl, rfl, rfl⟩
  · rw [machineKillWorker, if_pos hdc, hlast]
  · intro N
    rcases cfg with ⟨mtk, mtl, rb, kdc, km, kdh, kp, ks, tid, rep, afi⟩
    simp only at hdc
    subst hdc
    rfl
  · intro h0 h1 hmd
    exact ⟨mul_nonneg h0 (le_of_lt hmd), mul_lt_of_lt_one_left hmd h1⟩

/-- Concrete instance of C5: the datacenter branch with reboot unset and a
draw of 2 issues one RebootAndDelete kill of dc1 and finishes. -/
theorem C5_dc_single_kill_witness :
    machineKillWorker { baseCfg with killDc := true } [locA] 1 0 2 zeroDraws
      = some ([Event.delayEv (0 * 1),
               Event.killDataCenter (some "dc1") KillType.RebootAndDelete],
              [], [locA]) := by
  have h := C5_dc_single_kill { baseCfg with killDc := true } [locA] 1 0 2
    zeroDraws locA rfl rfl
  rw [h.1]
  rfl

/-- Claim C6: a suppression window opens by writing the
ignore-storage-server-failures marker, and — because machineKillWorker
wraps it in `uncancellable` — runs its close step to completion no matter
when (or whether) the owning run is cancelled: as soon as some commit of
the retried clear succeeds, the final marker state is empty, leaving no
residual marker. -/
theorem C6_suppression_round_trip (st : Option String) (commits : List Bool)
    (cancelAt : Option Nat) (hsucc : true ∈ commits) :
    suppressionInKillWorker cancelAt st commits = none
    ∧ runSteps st [SuppStep.openMarker] = some ignoreSSFailuresZone := by
  refine ⟨?_, rfl⟩
  have hclear := runSteps_clearAttempts commits hsucc (some ignoreSSFailuresZone)
  have hwin : runSteps st (windowSteps commits) = none := by
    rw [windowSteps]
    simpa [runSteps, applySuppStep] using hclear
  cases cancelAt with
  | none => exact hwin
  | some n =>
    rw [suppressionInKillWorker, runFuture, if_pos rfl]
    exact hwin

/-- Concrete instance of C6: a window whose first clear commit fails and
second succeeds ends with no marker even when cancelled after one step. -/
theorem C6_suppression_round_trip_witness :
    suppressionInKillWorker (some 1) (some "x") [false, true] = none :=
  (C6_suppression_round_trip (some "x") [false, true] (some 1) (by decide)).1

/-- Claim C7: the run boundary treats exactly please_reboot and
please_reboot_delete as expected — a worker completing, throwing one of
those two codes, or being cut off by the outer time budget all yield a
normal completion — while any other thrown error propagates as a failure. -/
theorem C7_error_boundary :
    (∀ e : Nat, e ∈ normalAttritionErrors ↔
      (e = errorCodePleaseReboot ∨ e = errorCodePleaseRebootDelete))
    ∧ (∀ expired, startBoundary none expired = Except.ok ())
    ∧ (∀ e expired, e ∈ normalAttritionErrors →
        startBoundary (some e) expired = Except.ok ())
    ∧ (∀ e, e ∉ normalAttritionErrors →
        startBoundary (some e) false = Except.error e)
    ∧ (∀ w, startBoundary w true = Except.ok ()) := by
  refine ⟨?_, ?_, ?_, ?_, ?_⟩
  · intro e
    simp [normalAttritionErrors]
  · intro expired
    cases expired <;> rfl
  · intro e expired he
    cases expired <;> simp [startBoundary, timeoutWrap, reportErrorsExcept, he]
  · intro e he
    simp [startBoundary, timeoutWrap, reportErrorsExcept, he]
  · intro w
    simp [startBoundary, timeoutWrap]

/-- Concrete instance of C7: an unexpected error code propagates. -/
theorem C7_error_boundary_witness :
    startBoundary (some 5) false = Except.error 5 :=
  C7_error_boundary.2.2.2.1 5 (by decide)

/-- Claim C8: when killSelf is configured and the run is not cut short,
machineKillWorker's trace ends with exactly one please_reboot raise, after
all kill events; with killSelf unset the trace never contains the raise. -/
theorem C8_self_destruct (cfg : AttritionConfig) (pool : List LocalityData)
    (meanDelay rInit : ℚ) (rDc : Nat) (draws : Nat → IterDraws)
    (evs : List Event) (killed poolF : List LocalityData)
    (hrun : machineKillWorker cfg pool meanDelay rInit rDc draws
      = some (evs, killed, poolF)) :
    (cfg.killSelf = true →
      evs.getLast? = some Event.raisePleaseReboot
      ∧ evs.count Event.raisePleaseReboot = 1)
    ∧ (cfg.killSelf = false → Event.raisePleaseReboot ∉ evs) := by
  obtain ⟨pre, hevs, hpre⟩ := machineKillWorker_evs_decomp cfg pool meanDelay
    rInit rDc draws evs killed poolF hrun
  constructor
  · intro hks
    rw [hevs, selfDestructEvents, if_pos hks]
    constructor
    · exact List.getLast?_concat pre
    · rw [List.count_append]
      rw [List.count_eq_zero.mpr hpre]
      rfl
  · intro hks
    rw [hevs, selfDestructEvents, if_neg (by simp [hks])]
    simpa using hpre

/-- Concrete instance of C8: with killSelf set and a pool already at the
preserve floor, the trace is exactly one please_reboot raise. -/
theorem C8_self_destruct_witness :
    [Event.raisePleaseReboot].getLast? = some Event.raisePleaseReboot
    ∧ [Event.raisePleaseReboot].count Event.raisePleaseReboot = 1 :=
  (C8_self_destruct { baseCfg with killSelf := true } [locA] 1 0 0 zeroDraws
    [Event.raisePleaseReboot] [] [locA] rfl).1 rfl

/-- Claim C9: the simulated pool as built at run start keys members by
zoneId (so zone ids are pairwise distinct) and draws them only from
non-failed, Server-named, non-tester processes; a non-replacement run only
ever removes the pool's tail, so its final pool is the untouched front of
the (shuffled) initial pool and the zones of distinct kills are pairwise
distinct. -/
theorem C9_pool_invariants :
    (∀ all : List ProcessInfo, ((machinesOf all).map LocalityData.zoneId).Nodup)
    ∧ (∀ all : List ProcessInfo, ∀ l ∈ machinesOf all, ∃ p, p ∈ all ∧
        p.failed = false ∧ p.name = "Server" ∧
        p.startingClass ≠ ProcessClass.TesterClass ∧ p.locality = l)
    ∧ (∀ (cfg : AttritionConfig) (all : List ProcessInfo)
        (pool : List LocalityData) (meanDelay rInit : ℚ) (rDc : Nat)
        (draws : Nat → IterDraws) (evs : List Event)
        (killed poolF : List LocalityData),
        cfg.killDc = false → cfg.replacement = false →
        cfg.machinesToLeave ≤ pool.length →
        pool.Perm (machinesOf all) →
        machineKillWorker cfg pool meanDelay rInit rDc draws
          = some (evs, killed, poolF) →
        poolF = pool.take (pool.length - killed.length)
        ∧ (killed.map LocalityData.zoneId).Nodup) := by
  refine ⟨machinesOf_zoneId_nodup, machinesOf_mem, ?_⟩
  intro cfg all pool meanDelay rInit rDc draws evs killed poolF
    hdc hrep hK hperm hrun
  rw [machineKillWorker, if_neg (by simp [hdc])] at hrun
  simp only [Option.some.injEq, Prod.mk.injEq] at hrun
  obtain ⟨-, h2, h3⟩ := hrun
  rw [hrep] at h2 h3
  subst h2
  subst h3
  have hnd : (pool.map LocalityData.zoneId).Nodup :=
    ((hperm.map LocalityData.zoneId).nodup_iff).mpr (machinesOf_zoneId_nodup all)
  have hlen := killLoop_killed_length cfg.machinesToLeave cfg.reboot
    cfg.allowFaultInjection meanDelay cfg.machinesToKill draws
    (rInit * meanDelay) pool hK
  have htake := (killLoop_spec cfg.machinesToLeave cfg.reboot
    cfg.allowFaultInjection meanDelay cfg.machinesToKill draws
    (rInit * meanDelay) pool hK).2
  refine ⟨?_, ?_⟩
  · rw [htake, hlen]
  · exact killLoop_killed_map_nodup LocalityData.zoneId cfg.machinesToLeave
      cfg.reboot cfg.allowFaultInjection meanDelay cfg.machinesToKill draws
      (rInit * meanDelay) pool hK hnd

/-- Concrete instance of C9 part 3: a run over the pool built from three
Server processes kills two members of distinct zones and leaves the front. -/
theorem C9_pool_invariants_witness :
    [locA] = [locA, locB, locC].take ([locA, locB, locC].length - [locC, locB].length)
    ∧ ([locC, locB].map LocalityData.zoneId).Nodup := by
  have hpool : machinesOf allEx = [locA, locB, locC] := by decide
  have h := C9_pool_invariants.2.2 baseCfg allEx [locA, locB, locC] 1 0 0
    zeroDraws _ [locC, locB] [locA] rfl rfl (by decide)
    (by rw [hpool]) rfl
  exact ⟨h.1, h.2⟩

/-- Claim C10: the simulated scheduler branches only on the datacenter-kill
flag; the kill-by-machine, kill-by-datahall and kill-by-process flags have
no effect on its behavior — any two configurations differing only in those
three flags produce identical runs. -/
theorem C10_scoped_flags_no_effect (cfg : AttritionConfig)
    (pool : List LocalityData) (meanDelay rInit : ℚ) (rDc : Nat)
    (draws : Nat → IterDraws) (a b c : Bool) :
    machineKillWorker { cfg with
        killMachine := a
        killDatahall := b
        killProcess := c } pool meanDelay rInit rDc draws
      = machineKillWorker cfg pool meanDelay rInit rDc draws := by
  rcases cfg with ⟨mtk, mtl, rb, kdc, km, kdh, kp, ks, tid, rep, afi⟩
  rfl

end MachineAttrition
